import Mathlib

/-!
Shallow embedding of the exchange-lifecycle core of the cash-exchange
backend (src/backend/controllers/exchangeController.js,
src/backend/models/ExchangeRequest.js including the embedded User model,
and the Transaction model embedded in src/backend/models/Rating.js),
together with theorems settling the frozen claims about it.

Currency amounts are modelled as integers (the smallest currency unit),
wall-clock instants as integers (seconds), Mongo ObjectIds as naturals,
and geographic coordinates and distances as rationals.  `Math.random()`
is modelled as a rational `rnum / rden` with `rnum < rden`.  The MongoDB
session transaction used by the settlement engine is modelled by the
`Except` result: an error leaves the caller with the unchanged state
(`completeRun` makes the rollback explicit).
-/

namespace CashExchange

abbrev UserId := Nat
abbrev ReqId := Nat

/-- `exchangeType` enum of the ExchangeRequest schema. -/
inductive ExchangeType
  | cashToOnline
  | onlineToCash
deriving DecidableEq, Repr

/-- `status` enum of the ExchangeRequest schema. -/
inductive Status
  | created
  | accepted
  | completed
  | cancelled
  | expired
  | disputed
deriving DecidableEq, Repr

/-- `status` enum of the Transaction schema. -/
inductive TxnStatus
  | pending
  | completed
  | failed
  | reversed
deriving DecidableEq, Repr

/-- Error taxonomy: `AppError` status codes used by the controller
(400 conflict/validation, 403 forbidden, 404 not found) plus internal
failures rethrown out of the settlement session. -/
inductive Err
  | validation (msg : String)
  | conflict (msg : String)
  | forbidden (msg : String)
  | notFound (msg : String)
  | internal (msg : String)
deriving DecidableEq, Repr

/-- An ExchangeRequest document (the fields the lifecycle engine reads
or writes; auxiliary presentation fields such as notes, meeting point
and view counters are omitted). `platformFee` is `metadata.platformFee`,
`completionCode` is `metadata.completionCode`, the timestamps live in
`timeline` in the schema. -/
structure Request where
  id : ReqId
  requester : UserId
  helper : Option UserId := none
  amount : Int
  exchangeType : ExchangeType
  loc : Rat × Rat
  status : Status := .created
  linkedRequest : Option ReqId := none
  expiresAt : Int
  acceptedAt : Option Int := none
  completedAt : Option Int := none
  cancelledAt : Option Int := none
  platformFee : Int := 0
  completionCode : Option Nat := none
deriving DecidableEq, Repr

/-- A Transaction document as written by `Transaction.createTransaction`. -/
structure Txn where
  exchangeRequest : ReqId
  payer : UserId
  payee : UserId
  amount : Int
  type : ExchangeType
  platformFee : Int
  netAmount : Int
  payerBalanceBefore : Int
  payerBalanceAfter : Int
  payeeBalanceBefore : Int
  payeeBalanceAfter : Int
  status : TxnStatus
  completedAt : Int
deriving DecidableEq, Repr

/-- The persistent state the engine operates on: the exchange-request
collection, each user's `wallet.balance` and
`profile.completedExchanges`, and the transaction log. -/
structure St where
  requests : List Request
  balance : UserId → Int
  completedExchanges : UserId → Nat
  transactions : List Txn

/-- `generateCompletionCode`:
`Math.floor(100000 + Math.random() * 900000)` with the random draw
modelled as the rational `rnum / rden` (`rnum < rden`). -/
def generateCompletionCode (rnum rden : Nat) : Nat :=
  100000 + rnum * 900000 / rden

/-- `User.creditWallet`: rejects non-positive amounts, then adds to the
balance. -/
def creditWallet (balance amount : Int) : Except String Int :=
  if amount ≤ 0 then .error "Credit amount must be positive"
  else .ok (balance + amount)

/-- `User.debitWallet`: rejects non-positive amounts and insufficient
balance, then subtracts. -/
def debitWallet (balance amount : Int) : Except String Int :=
  if amount ≤ 0 then .error "Debit amount must be positive"
  else if balance < amount then .error "Insufficient wallet balance"
  else .ok (balance - amount)

/-- `Transaction.createTransaction` (Rating.js): records both balances,
debits the payer by `amount`, credits the payee by
`netAmount = amount - platformFee`, and builds the COMPLETED
transaction document.  Any throw aborts the enclosing session. -/
def createTransaction (bal : UserId → Int) (exchangeRequest : ReqId)
    (payer payee : UserId) (amount : Int) (ty : ExchangeType)
    (platformFee : Int) (now : Int) :
    Except String ((UserId → Int) × Txn) :=
  match debitWallet (bal payer) amount with
  | .error e => .error e
  | .ok payerAfter =>
    match creditWallet (bal payee) (amount - platformFee) with
    | .error e => .error e
    | .ok payeeAfter =>
      .ok (Function.update (Function.update bal payer payerAfter) payee payeeAfter,
        { exchangeRequest, payer, payee, amount, type := ty, platformFee,
          netAmount := amount - platformFee,
          payerBalanceBefore := bal payer, payerBalanceAfter := payerAfter,
          payeeBalanceBefore := bal payee, payeeBalanceAfter := payeeAfter,
          status := .completed, completedAt := now })

/-- `ExchangeRequest.findById`. -/
def findReq (st : St) (requestId : ReqId) : Option Request :=
  st.requests.find? (fun r => decide (r.id = requestId))

/-- The statuses counted as an active request (`{ $in: ['CREATED', 'ACCEPTED'] }`). -/
def isActive (s : Status) : Prop := s = .created ∨ s = .accepted

instance (s : Status) : Decidable (isActive s) := by
  unfold isActive; infer_instance

/-- `createExchangeRequest` (controller): one-active-request check,
balance check for ONLINE_TO_CASH, schema bounds on `amount`, then the
document is created with the platform fee frozen into its metadata.
`newId` stands for the ObjectId Mongo mints. -/
def createExchangeRequest (st : St) (now : Int) (actor : UserId) (newId : ReqId)
    (amount : Int) (exchangeType : ExchangeType) (loc : Rat × Rat)
    (expiresInMinutes : Int) (platformFeePercent : Int) :
    Except Err (St × Request) :=
  if st.requests.any (fun r => decide (r.requester = actor ∧ isActive r.status)) then
    .error (.conflict "You already have an active exchange request")
  else if exchangeType = .onlineToCash ∧ st.balance actor < amount then
    .error (.conflict "Insufficient wallet balance")
  else if amount < 1 then
    .error (.validation "Amount must be at least 1")
  else if 100000 < amount then
    .error (.validation "Amount cannot exceed 100000")
  else
    let r : Request :=
      { id := newId, requester := actor, amount, exchangeType, loc,
        expiresAt := now + expiresInMinutes * 60,
        platformFee := amount * platformFeePercent / 100 }
    .ok ({ st with requests := st.requests ++ [r] }, r)

/-- The conditional acceptance write:
`findOneAndUpdate({_id, status: 'CREATED', helper: null}, {$set: {...}})`.
Returns `none` when no document matches (the caller lost the race). -/
def condAcceptWrite (requests : List Request) (requestId : ReqId)
    (actor : UserId) (now : Int) : Option (List Request × Request) :=
  match requests.find?
      (fun r => decide (r.id = requestId ∧ r.status = .created ∧ r.helper = none)) with
  | none => none
  | some r =>
    some (requests.map (fun q =>
      if q.id = requestId ∧ q.status = .created ∧ q.helper = none then
        { q with status := Status.accepted, helper := some actor, acceptedAt := some now }
      else q),
      { r with status := Status.accepted, helper := some actor, acceptedAt := some now })

/-- Successful result of `acceptExchangeRequest`: new state, the updated
target request and the completion code handed to the helper. -/
structure AcceptOk where
  st : St
  updatedRequest : Request
  completionCode : Nat

/-- `acceptExchangeRequest` (controller): busy check, target lookup,
self-acceptance, status, expiry (`isExpired` = `expiresAt < now`),
helper-must-have-own-CREATED-request, direction compatibility, amount
sufficiency, then the conditional write, the completion-code save, and
the unconditional link write on the helper's own request. -/
def acceptExchangeRequest (st : St) (now : Int) (actor : UserId)
    (requestId : ReqId) (rnum rden : Nat) : Except Err AcceptOk :=
  if st.requests.any (fun r =>
      decide (r.status = .accepted ∧ (r.requester = actor ∨ r.helper = some actor))) then
    .error (.conflict "You already have an active exchange in progress")
  else
    match findReq st requestId with
    | none => .error (.notFound "Exchange request not found")
    | some targetRequest =>
      if targetRequest.requester = actor then
        .error (.conflict "Cannot accept your own request")
      else if targetRequest.status ≠ .created then
        .error (.conflict "Request is no longer available")
      else if targetRequest.expiresAt < now then
        .error (.conflict "Request has expired")
      else
        match st.requests.find?
            (fun r => decide (r.requester = actor ∧ r.status = .created)) with
        | none => .error (.conflict "You must have an active request to accept others")
        | some helperRequest =>
          if ¬ ((targetRequest.exchangeType = .onlineToCash ∧
                  helperRequest.exchangeType = .cashToOnline) ∨
                (targetRequest.exchangeType = .cashToOnline ∧
                  helperRequest.exchangeType = .onlineToCash)) then
            .error (.conflict "Exchange types are not compatible")
          else if helperRequest.amount < targetRequest.amount then
            .error (.conflict "Your request amount is insufficient")
          else
            match condAcceptWrite st.requests requestId actor now with
            | none => .error (.conflict "Request already accepted by another user")
            | some (requests1, updatedRequest) =>
              .ok { st := { st with requests :=
                      (requests1.map (fun q =>
                        if q.id = requestId then
                          { q with completionCode := some (generateCompletionCode rnum rden) }
                        else q)).map (fun q =>
                        if q.id = helperRequest.id then
                          { q with
                              status := Status.accepted
                              linkedRequest := some requestId
                              acceptedAt := some now }
                        else q) },
                    updatedRequest := { updatedRequest with
                      completionCode := some (generateCompletionCode rnum rden) },
                    completionCode := generateCompletionCode rnum rden }

/-- Payer selection in the settlement engine:
CASH_TO_ONLINE means the requester pays, ONLINE_TO_CASH means the
helper `h` pays. -/
def payerOf (r : Request) (h : UserId) : UserId :=
  match r.exchangeType with
  | .cashToOnline => r.requester
  | .onlineToCash => h

/-- Payee selection in the settlement engine: the counterpart of
`payerOf`. -/
def payeeOf (r : Request) (h : UserId) : UserId :=
  match r.exchangeType with
  | .cashToOnline => h
  | .onlineToCash => r.requester

/-- `completeExchangeRequest` (controller): target lookup, helper-only
check, ACCEPTED check, completion-code check, then the settlement
session: `Transaction.createTransaction`, mark the target COMPLETED,
mark the request referenced by the *target's* `linkedRequest` COMPLETED
when it resolves, and increment both parties' completed-exchange
counters.  A throw anywhere inside the session aborts it. -/
def completeExchangeRequest (st : St) (now : Int) (actor : UserId)
    (requestId : ReqId) (code : Nat) : Except Err (St × Txn) :=
  match findReq st requestId with
  | none => .error (.notFound "Exchange request not found")
  | some exchangeRequest =>
    match exchangeRequest.helper with
    | none => .error (.forbidden "Only the helper can complete this request")
    | some h =>
      if h ≠ actor then
        .error (.forbidden "Only the helper can complete this request")
      else if exchangeRequest.status ≠ .accepted then
        .error (.conflict "This request cannot be completed")
      else if exchangeRequest.completionCode ≠ some code then
        .error (.conflict "Invalid completion code")
      else
        match createTransaction st.balance requestId
            (payerOf exchangeRequest h) (payeeOf exchangeRequest h)
            exchangeRequest.amount exchangeRequest.exchangeType
            exchangeRequest.platformFee now with
        | .error e => .error (.internal e)
        | .ok (bal1, txn) =>
          .ok ({ requests :=
                   (match exchangeRequest.linkedRequest with
                    | none => st.requests.map (fun r =>
                        if r.id = requestId then
                          { r with status := Status.completed, completedAt := some now }
                        else r)
                    | some lid => (st.requests.map (fun r =>
                        if r.id = requestId then
                          { r with status := Status.completed, completedAt := some now }
                        else r)).map (fun r =>
                        if r.id = lid then
                          { r with status := Status.completed, completedAt := some now }
                        else r)),
                 balance := bal1,
                 completedExchanges :=
                   Function.update
                     (Function.update st.completedExchanges
                       (payerOf exchangeRequest h)
                       (st.completedExchanges (payerOf exchangeRequest h) + 1))
                     (payeeOf exchangeRequest h)
                     (st.completedExchanges (payeeOf exchangeRequest h) + 1),
                 transactions := st.transactions ++ [txn] }, txn)

/-- The settlement call as observed by the rest of the system: the
MongoDB session commits on success and is aborted on any error, so an
error leaves the state exactly as it was. -/
def completeRun (st : St) (now : Int) (actor : UserId) (requestId : ReqId)
    (code : Nat) : St × Option Txn :=
  match completeExchangeRequest st now actor requestId code with
  | .error _ => (st, none)
  | .ok (st1, txn) => (st1, some txn)

/-- `cancelExchangeRequest` (controller): requester-only, CREATED-only. -/
def cancelExchangeRequest (st : St) (now : Int) (actor : UserId)
    (requestId : ReqId) : Except Err (St × Request) :=
  match findReq st requestId with
  | none => .error (.notFound "Exchange request not found")
  | some exchangeRequest =>
    if exchangeRequest.requester ≠ actor then
      .error (.forbidden "Only the requester can cancel this request")
    else if exchangeRequest.status ≠ .created then
      .error (.conflict "Only pending requests can be cancelled")
    else
      .ok ({ st with requests := st.requests.map (fun q =>
              if q.id = requestId then
                { q with status := Status.cancelled, cancelledAt := some now }
              else q) },
        { exchangeRequest with status := Status.cancelled, cancelledAt := some now })

/-- The hourly sweeper cron in index.js:
`updateMany({status: 'CREATED', expiresAt: {$lte: now}}, {$set: {status: 'EXPIRED'}})`. -/
def sweepExpiredRequests (st : St) (now : Int) : St :=
  { st with requests := st.requests.map (fun r =>
      if r.status = .created ∧ r.expiresAt ≤ now then
        { r with status := Status.expired }
      else r) }

/-- The options the controller assembles for `ExchangeRequest.findNearby`.
`minAmount`/`maxAmount` of `0` are dropped like the falsy values the
JavaScript truthiness test drops. -/
structure NearbyOptions where
  coordinates : Rat × Rat
  maxDistance : Rat := 5000
  excludeUserId : UserId
  exchangeType : Option ExchangeType := none
  minAmount : Option Int := none
  maxAmount : Option Int := none
  limit : Nat := 50
  page : Nat := 1

/-- The `query` object `findNearby` hands to `$geoNear`: status CREATED,
unexpired (`expiresAt` strictly in the future), not the caller's own
request, plus the optional type and amount filters. -/
def matchesQuery (now : Int) (o : NearbyOptions) (r : Request) : Bool :=
  decide (r.status = .created) &&
  decide (now < r.expiresAt) &&
  decide (r.requester ≠ o.excludeUserId) &&
  (match o.exchangeType with
   | none => true
   | some t => decide (r.exchangeType = t)) &&
  (match o.minAmount with
   | none => true
   | some m => if m = 0 then true else decide (m ≤ r.amount)) &&
  (match o.maxAmount with
   | none => true
   | some m => if m = 0 then true else decide (r.amount ≤ m))

/-- Insertion of a request into a list sorted ascending by `key`. -/
def insertByKey (key : Request → Rat) (r : Request) :
    List Request → List Request
  | [] => [r]
  | q :: qs =>
    if key r ≤ key q then r :: q :: qs else q :: insertByKey key r qs

/-- Ascending sort by `key`, modelling the distance ordering `$geoNear`
returns. -/
def sortByKey (key : Request → Rat) : List Request → List Request
  | [] => []
  | r :: rs => insertByKey key r (sortByKey key rs)

/-- `ExchangeRequest.findNearby`: `$geoNear` over the `query` above with
the radius bound, ascending by distance, then `$skip`/`$limit`.  The
spherical distance computed by the 2dsphere index is abstracted as the
`geoDist` function.  The second component is the
`countDocuments(query)` total, which the source computes without the
geo constraint. -/
def findNearby (geoDist : Rat × Rat → Rat × Rat → Rat) (st : St) (now : Int)
    (o : NearbyOptions) : List Request × Nat :=
  let withinRadius := st.requests.filter (fun r =>
    matchesQuery now o r && decide (geoDist o.coordinates r.loc ≤ o.maxDistance))
  let sorted := sortByKey (fun r => geoDist o.coordinates r.loc) withinRadius
  (((sorted.drop ((o.page - 1) * o.limit)).take o.limit),
    (st.requests.filter (matchesQuery now o)).length)

/-- `ExchangeRequest.findCompatibleHelpers`: looks the caller's request
up, derives the opposite direction and the minimum amount, and delegates
to `findNearby`, excluding the request's own requester. -/
def findCompatibleHelpers (geoDist : Rat × Rat → Rat × Rat → Rat) (st : St)
    (now : Int) (requestId : ReqId) (maxDistance : Rat) (limit page : Nat) :
    Except String (List Request × Nat) :=
  match findReq st requestId with
  | none => .error "Request not found"
  | some request =>
    let oppositeType := match request.exchangeType with
      | .cashToOnline => ExchangeType.onlineToCash
      | .onlineToCash => ExchangeType.cashToOnline
    .ok (findNearby geoDist st now
      { coordinates := request.loc, maxDistance,
        excludeUserId := request.requester,
        exchangeType := some oppositeType,
        minAmount := some request.amount, limit, page })

/-- N callers racing on the same request, serialized by the store: each
caller's conditional write is applied atomically in turn.  Returns the
final request collection and how many of the writes succeeded. -/
def runCondAccepts (requests : List Request) (requestId : ReqId) (now : Int) :
    List UserId → List Request × Nat
  | [] => (requests, 0)
  | u :: us =>
    match condAcceptWrite requests requestId u now with
    | none => runCondAccepts requests requestId now us
    | some (requests1, _) =>
      let (rs, k) := runCondAccepts requests1 requestId now us
      (rs, k + 1)

/-- Status of the request `requestId` as stored in `st`. -/
def statusOf (st : St) (requestId : ReqId) : Option Status :=
  (findReq st requestId).map (fun r => r.status)

/-- How many stored requests are COMPLETED. -/
def completedCount (st : St) : Nat :=
  st.requests.countP (fun r => decide (r.status = .completed))

/-- Initial balances of the two scenario users: requester A is user 1
with 1000, helper B is user 2 with 2000. -/
def scenarioBalance : UserId → Int :=
  fun u => if u = 1 then 1000 else if u = 2 then 2000 else 0

/-- Empty store with the two scenario users. -/
def scenarioSt0 : St :=
  { requests := [], balance := scenarioBalance,
    completedExchanges := fun _ => 0, transactions := [] }

/-- The §8 end-to-end scenario at platform-fee percentage `pct`:
A (user 1) creates CASH_TO_ONLINE 500, B (user 2) creates
ONLINE_TO_CASH 1500, B accepts A's request and completes it with the
code the acceptance returned.  Yields the final state, or `none` if any
step failed. -/
def scenarioRun (pct : Int) : Option St :=
  match createExchangeRequest scenarioSt0 0 1 101 500 .cashToOnline (0, 0) 30 pct with
  | .error _ => none
  | .ok (st1, _) =>
    match createExchangeRequest st1 0 2 102 1500 .onlineToCash (0, 0) 30 pct with
    | .error _ => none
    | .ok (st2, _) =>
      match acceptExchangeRequest st2 10 2 101 234567 900000 with
      | .error _ => none
      | .ok out =>
        match completeExchangeRequest out.st 20 2 101 out.completionCode with
        | .error _ => none
        | .ok (st3, _) => some st3

/-- Final balance of `u` in the scenario at fee percentage `pct`. -/
def scenarioBalanceOf (pct : Int) (u : UserId) : Option Int :=
  (scenarioRun pct).map (fun st => st.balance u)

/-- Final status of request `i` in the scenario at fee percentage `pct`. -/
def scenarioStatusOf (pct : Int) (i : ReqId) : Option (Option Status) :=
  (scenarioRun pct).map (fun st => statusOf st i)

/-- The target's `linkedRequest` field as stored for request `i`. -/
def linkedOf (st : St) (i : ReqId) : Option (Option ReqId) :=
  (findReq st i).map (fun r => r.linkedRequest)

/-- Number of requests a user owns that are in an active status. -/
def activeCount (st : St) (u : UserId) : Nat :=
  st.requests.countP (fun r => decide (r.requester = u ∧ isActive r.status))

/-- The one-active-request-per-user invariant. -/
def oneActivePerUser (st : St) : Prop := ∀ u, activeCount st u ≤ 1

/-- A CREATED request of user 1, used by concrete instantiations. -/
def pendReq : Request :=
  { id := 7, requester := 1, amount := 100, exchangeType := .cashToOnline,
    loc := (0, 0), expiresAt := 1000 }

/-- Store holding just `pendReq`. -/
def pendSt : St :=
  { requests := [pendReq], balance := scenarioBalance,
    completedExchanges := fun _ => 0, transactions := [] }

/-- An ACCEPTED request whose expiry has long passed: requester 1,
helper 2, completion code 42. -/
def accReq : Request :=
  { id := 9, requester := 1, helper := some 2, amount := 100,
    exchangeType := .cashToOnline, loc := (0, 0), status := .accepted,
    expiresAt := -100, platformFee := 10, completionCode := some 42 }

/-- Store holding just `accReq`. -/
def accSt : St :=
  { requests := [accReq], balance := scenarioBalance,
    completedExchanges := fun _ => 0, transactions := [] }

/-- Like `accSt` but the frozen platform fee exceeds the amount. -/
def feeSt : St :=
  { requests := [{ accReq with id := 11, platformFee := 150 }],
    balance := scenarioBalance,
    completedExchanges := fun _ => 0, transactions := [] }

/-- Degenerate distance function for concrete discovery instantiations. -/
def gdZero : Rat × Rat → Rat × Rat → Rat := fun _ _ => 0

/-- Discovery options excluding user 2, used by concrete instantiations. -/
def wOpts : NearbyOptions := { coordinates := (0, 0), excludeUserId := 2 }

/-- The result of the conditional acceptance write of helper 2 on
`pendReq`. -/
def racedPair : List Request × Request :=
  ([{ pendReq with status := Status.accepted, helper := some 2, acceptedAt := some 0 }],
   { pendReq with status := Status.accepted, helper := some 2, acceptedAt := some 0 })

/-- Store state after helper 2 won the race on `pendReq`. -/
def racedSt : St :=
  { requests := racedPair.1, balance := scenarioBalance,
    completedExchanges := fun _ => 0, transactions := [] }

/-- A CREATED counter-request of user 2, compatible with `pendReq`. -/
def linkReqB : Request :=
  { id := 8, requester := 2, amount := 200, exchangeType := .onlineToCash,
    loc := (0, 0), expiresAt := 1000 }

/-- Store holding `pendReq` and `linkReqB`, ready for user 2 to accept
request 7. -/
def linkSt : St :=
  { requests := [pendReq, linkReqB], balance := scenarioBalance,
    completedExchanges := fun _ => 0, transactions := [] }

/-! ### General lemmas about the embedded operations -/

lemma mem_insertByKey {key : Request → Rat} {r x : Request} {l : List Request} :
    x ∈ insertByKey key r l ↔ x = r ∨ x ∈ l := by
  induction l with
  | nil => simp [insertByKey]
  | cons q qs ih =>
    simp only [insertByKey]
    split
    · simp [List.mem_cons]
    · simp only [List.mem_cons, ih]
      tauto

lemma mem_sortByKey {key : Request → Rat} {x : Request} {l : List Request} :
    x ∈ sortByKey key l ↔ x ∈ l := by
  induction l with
  | nil => simp [sortByKey]
  | cons q qs ih => simp [sortByKey, mem_insertByKey, ih]

lemma findNearby_mem_query {geoDist : Rat × Rat → Rat × Rat → Rat} {st : St}
    {now : Int} {o : NearbyOptions} {r : Request}
    (h : r ∈ (findNearby geoDist st now o).1) : matchesQuery now o r = true := by
  simp only [findNearby] at h
  have h1 := List.mem_of_mem_drop (List.mem_of_mem_take h)
  rw [mem_sortByKey] at h1
  have h2 := (List.mem_filter.mp h1).2
  simp only [Bool.and_eq_true] at h2
  exact h2.1

lemma matchesQuery_props {now : Int} {o : NearbyOptions} {r : Request}
    (h : matchesQuery now o r = true) :
    r.status = .created ∧ now < r.expiresAt ∧ r.requester ≠ o.excludeUserId := by
  simp only [matchesQuery, Bool.and_eq_true, decide_eq_true_eq] at h
  exact ⟨h.1.1.1.1.1, h.1.1.1.1.2, h.1.1.1.2⟩

/-! ### C7: range of the generated completion code -/

/-- C7 counterexample: `generateCompletionCode` never emits a value
below 100000, so codes whose six-digit form has a leading zero
(the whole "000000"–"099999" band the claim says is possible) are
impossible, whatever the random draw `rnum / rden` was. -/
theorem completion_code_no_leading_zero :
    ¬ ∃ rnum rden : Nat, rnum < rden ∧ generateCompletionCode rnum rden < 100000 := by
  rintro ⟨n, d, _, hlt⟩
  simp only [generateCompletionCode] at hlt
  have := Nat.le_add_right 100000 (n * 900000 / d)
  omega

/-- C7 amended: on every successful accept the generated completionCode
is a random integer in the range 100000–999999 (six decimal digits with
a non-zero leading digit; zero padding never occurs), and every value of
that range is a possible output. -/
theorem completion_code_range :
    (∀ rnum rden : Nat, rnum < rden →
      100000 ≤ generateCompletionCode rnum rden ∧
      generateCompletionCode rnum rden < 1000000) ∧
    (∀ c : Nat, 100000 ≤ c → c < 1000000 →
      generateCompletionCode (c - 100000) 900000 = c) := by
  constructor
  · intro n d hnd
    refine ⟨by simp [generateCompletionCode], ?_⟩
    simp only [generateCompletionCode]
    have h3 : n * 900000 < d * 900000 :=
      mul_lt_mul_of_pos_right hnd (show (0:ℕ) < 900000 by norm_num)
    have h4 : n * 900000 / d < 900000 := Nat.div_lt_of_lt_mul h3
    omega
  · intro c h1 h2
    simp only [generateCompletionCode]
    rw [Nat.mul_div_cancel _ (show 0 < 900000 by norm_num)]
    omega

/-- Witness for `completion_code_range` at the draw 5/7 and at the
target code 123456. -/
theorem completion_code_range_witness :
    (100000 ≤ generateCompletionCode 5 7 ∧ generateCompletionCode 5 7 < 1000000) ∧
    generateCompletionCode (123456 - 100000) 900000 = 123456 :=
  ⟨completion_code_range.1 5 7 (by decide),
   completion_code_range.2 123456 (by decide) (by decide)⟩

/-! ### C6: discovery filtering -/

/-- C6: a request returned by `findNearby` (and hence by
`findCompatibleHelpers`, which delegates to it with the caller's id
excluded) always has status CREATED, an `expiresAt` still in the
future, and a requester different from the calling user; the conditions
are part of the query the store evaluates. -/
theorem discovery_never_returns_stale
    (geoDist : Rat × Rat → Rat × Rat → Rat) (st : St) (now : Int)
    (o : NearbyOptions) (requestId : ReqId) (maxDistance : Rat)
    (limit page : Nat) (r : Request) :
    (r ∈ (findNearby geoDist st now o).1 →
      r.status = .created ∧ now < r.expiresAt ∧ r.requester ≠ o.excludeUserId) ∧
    (∀ res myReq,
      findCompatibleHelpers geoDist st now requestId maxDistance limit page = .ok res →
      findReq st requestId = some myReq → r ∈ res.1 →
      r.status = .created ∧ now < r.expiresAt ∧ r.requester ≠ myReq.requester) := by
  constructor
  · intro h
    exact matchesQuery_props (findNearby_mem_query h)
  · intro res myReq hok hfind hr
    simp only [findCompatibleHelpers, hfind] at hok
    cases hok
    exact matchesQuery_props (findNearby_mem_query hr)

/-- Witness for `discovery_never_returns_stale`: the CREATED request
`pendReq` is returned to caller 2 and indeed satisfies the guarantees. -/
theorem discovery_never_returns_stale_witness :
    pendReq.status = .created ∧ (0:Int) < pendReq.expiresAt ∧
      pendReq.requester ≠ wOpts.excludeUserId :=
  (discovery_never_returns_stale gdZero pendSt 0 wOpts 0 0 0 0 pendReq).1 (by decide)

/-! ### C3: at most one acceptance winner -/

lemma find?_condUpd_none (rs : List Request) (requestId : ReqId)
    (actor : UserId) (now : Int) :
    ((rs.map (fun q =>
        if q.id = requestId ∧ q.status = Status.created ∧ q.helper = none then
          { q with status := Status.accepted, helper := some actor, acceptedAt := some now }
        else q)).find?
      (fun r => decide (r.id = requestId ∧ r.status = Status.created ∧ r.helper = none)))
      = none := by
  rw [List.find?_eq_none]
  intro x hx
  rw [List.mem_map] at hx
  obtain ⟨y, -, rfl⟩ := hx
  by_cases hc : y.id = requestId ∧ y.status = Status.created ∧ y.helper = none
  · rw [if_pos hc]
    simp
  · rw [if_neg hc]
    simp [hc]

lemma condAcceptWrite_blocks {rs : List Request} {requestId : ReqId}
    {u : UserId} {now : Int} {res : List Request × Request}
    (h : condAcceptWrite rs requestId u now = some res) :
    ∀ (v : UserId) (m : Int), condAcceptWrite res.1 requestId v m = none := by
  intro v m
  obtain ⟨rs1, r1⟩ := res
  simp only [condAcceptWrite] at h
  split at h
  · exact absurd h (by simp)
  · simp only [Option.some.injEq, Prod.mk.injEq] at h
    obtain ⟨h1, -⟩ := h
    subst h1
    simp only [condAcceptWrite]
    rw [find?_condUpd_none]

lemma runCondAccepts_all_fail {rs : List Request} {requestId : ReqId} {now : Int}
    (h : ∀ v, condAcceptWrite rs requestId v now = none) :
    ∀ us, runCondAccepts rs requestId now us = (rs, 0) := by
  intro us
  induction us with
  | nil => rfl
  | cons u us ih =>
    simp only [runCondAccepts, h u]
    exact ih

/-- C3: among any number of racing accept callers on the same request,
at most one conditional write succeeds; once somebody has won the race,
any further `acceptExchangeRequest` call on that request by any caller
returns a CONFLICT error. -/
theorem accept_concurrent_at_most_one
    (requests : List Request) (requestId : ReqId) (now now2 : Int)
    (callers : List UserId) (st2 : St) (u v : UserId)
    (res : List Request × Request) (rnum rden : Nat) :
    (runCondAccepts requests requestId now callers).2 ≤ 1 ∧
    (condAcceptWrite requests requestId u now = some res →
      st2.requests = res.1 →
      ∃ msg, acceptExchangeRequest st2 now2 v requestId rnum rden =
        .error (.conflict msg)) := by
  constructor
  · induction callers with
    | nil => simp [runCondAccepts]
    | cons w ws ih =>
      simp only [runCondAccepts]
      rcases hw : condAcceptWrite requests requestId w now with _ | res1
      · exact ih
      · obtain ⟨rs1, r1⟩ := res1
        simp only
        rw [runCondAccepts_all_fail
          (fun v1 => condAcceptWrite_blocks hw v1 now) ws]
  · intro hw hst
    obtain ⟨rs1, r1⟩ := res
    replace hst : st2.requests = rs1 := hst
    simp only [condAcceptWrite] at hw
    split at hw
    · exact absurd hw (by simp)
    · rename_i r0 hf0
      simp only [Option.some.injEq, Prod.mk.injEq] at hw
      obtain ⟨h1, -⟩ := hw
      have hp := List.find?_some hf0
      simp only [decide_eq_true_eq] at hp
      have hmem := List.mem_of_find?_eq_some hf0
      have hnone : condAcceptWrite st2.requests requestId v now2 = none := by
        rw [hst, ← h1]
        simp only [condAcceptWrite]
        rw [find?_condUpd_none]
      have hsome : ∃ q, findReq st2 requestId = some q := by
        rw [← Option.isSome_iff_exists]
        unfold findReq
        rw [hst, ← h1, List.find?_isSome]
        refine ⟨_, List.mem_map_of_mem _ hmem, ?_⟩
        rw [if_pos hp]
        simp [hp.1]
      obtain ⟨q, hq⟩ := hsome
      simp only [acceptExchangeRequest, hq]
      split
      · exact ⟨_, rfl⟩
      · split
        · exact ⟨_, rfl⟩
        · split
          · exact ⟨_, rfl⟩
          · split
            · exact ⟨_, rfl⟩
            · split
              · exact ⟨_, rfl⟩
              · split
                · exact ⟨_, rfl⟩
                · split
                  · exact ⟨_, rfl⟩
                  · rw [hnone]
                    exact ⟨_, rfl⟩

/-- Witness for `accept_concurrent_at_most_one`: three callers race on
`pendReq`; after helper 2 has won, caller 3 gets a CONFLICT error. -/
theorem accept_concurrent_at_most_one_witness :
    (runCondAccepts [pendReq] 7 0 [2, 3, 4]).2 ≤ 1 ∧
    ∃ msg, acceptExchangeRequest racedSt 5 3 7 1 2 = .error (.conflict msg) :=
  ⟨(accept_concurrent_at_most_one [pendReq] 7 0 5 [2, 3, 4] racedSt 2 3
      racedPair 1 2).1,
   (accept_concurrent_at_most_one [pendReq] 7 0 5 [2, 3, 4] racedSt 2 3
      racedPair 1 2).2 (by decide) rfl⟩

/-! ### C8: settlement does not re-check expiry -/

/-- C8 counterexample: `accReq` expired at time -100, yet at time 0 the
helper's `complete` call with the right code settles it instead of
failing: the settlement path re-checks helper, status and code but not
`expiresAt`. -/
theorem complete_settles_expired_request :
    (findReq accSt 9).map (fun r => r.expiresAt) = some (-100) ∧
    ((completeRun accSt 0 2 9 42).2).isSome = true ∧
    statusOf (completeRun accSt 0 2 9 42).1 9 = some .completed := by
  refine ⟨by decide, by decide, by decide⟩

/-- C8 amended: `complete` does not re-check expiry: whenever the
request exists, the caller is its helper, its status is ACCEPTED, the
supplied code matches, and the ledger operations can proceed, the call
succeeds even though `expiresAt` is already in the past. -/
theorem complete_ignores_expiry
    (st : St) (now : Int) (actor : UserId) (requestId : ReqId) (code : Nat)
    (r : Request)
    (hr : findReq st requestId = some r)
    (hhelp : r.helper = some actor)
    (hstat : r.status = .accepted)
    (hcode : r.completionCode = some code)
    (hexp : r.expiresAt < now)
    (hamt : 0 < r.amount)
    (hfee : r.platformFee < r.amount)
    (hbal : r.amount ≤ st.balance (payerOf r actor)) :
    ∃ st1 t, completeExchangeRequest st now actor requestId code = .ok (st1, t) := by
  simp only [completeExchangeRequest, hr, hhelp]
  rw [if_neg (by simp), if_neg (by simp [hstat]), if_neg (by simp [hcode])]
  simp only [createTransaction, debitWallet, creditWallet]
  rw [if_neg (by exact not_le.mpr hamt), if_neg (by exact not_lt.mpr hbal),
    if_neg (by exact not_le.mpr (by linarith))]
  exact ⟨_, _, rfl⟩

/-- Exact shape of a successful settlement: the state and transaction
`completeExchangeRequest` returns when all its checks pass and both
ledger operations go through. -/
lemma completeExchangeRequest_ok_eq
    (st : St) (now : Int) (actor : UserId) (requestId : ReqId) (code : Nat)
    (r : Request)
    (hr : findReq st requestId = some r)
    (hhelp : r.helper = some actor)
    (hstat : r.status = .accepted)
    (hcode : r.completionCode = some code)
    (hamt : 0 < r.amount)
    (hbal : r.amount ≤ st.balance (payerOf r actor))
    (hfee : r.platformFee < r.amount) :
    completeExchangeRequest st now actor requestId code =
      .ok ({ requests := (match r.linkedRequest with
               | none => st.requests.map (fun q =>
                   if q.id = requestId then
                     { q with status := Status.completed, completedAt := some now }
                   else q)
               | some lid => (st.requests.map (fun q =>
                   if q.id = requestId then
                     { q with status := Status.completed, completedAt := some now }
                   else q)).map (fun q =>
                   if q.id = lid then
                     { q with status := Status.completed, completedAt := some now }
                   else q)),
             balance := Function.update
               (Function.update st.balance (payerOf r actor)
                 (st.balance (payerOf r actor) - r.amount))
               (payeeOf r actor)
               (st.balance (payeeOf r actor) + (r.amount - r.platformFee)),
             completedExchanges := Function.update
               (Function.update st.completedExchanges (payerOf r actor)
                 (st.completedExchanges (payerOf r actor) + 1))
               (payeeOf r actor)
               (st.completedExchanges (payeeOf r actor) + 1),
             transactions := st.transactions ++
               [{ exchangeRequest := requestId,
                  payer := payerOf r actor, payee := payeeOf r actor,
                  amount := r.amount, type := r.exchangeType,
                  platformFee := r.platformFee,
                  netAmount := r.amount - r.platformFee,
                  payerBalanceBefore := st.balance (payerOf r actor),
                  payerBalanceAfter := st.balance (payerOf r actor) - r.amount,
                  payeeBalanceBefore := st.balance (payeeOf r actor),
                  payeeBalanceAfter :=
                    st.balance (payeeOf r actor) + (r.amount - r.platformFee),
                  status := .completed, completedAt := now }] },
           { exchangeRequest := requestId,
             payer := payerOf r actor, payee := payeeOf r actor,
             amount := r.amount, type := r.exchangeType,
             platformFee := r.platformFee,
             netAmount := r.amount - r.platformFee,
             payerBalanceBefore := st.balance (payerOf r actor),
             payerBalanceAfter := st.balance (payerOf r actor) - r.amount,
             payeeBalanceBefore := st.balance (payeeOf r actor),
             payeeBalanceAfter :=
               st.balance (payeeOf r actor) + (r.amount - r.platformFee),
             status := .completed, completedAt := now }) := by
  simp only [completeExchangeRequest, hr, hhelp]
  rw [if_neg (by simp), if_neg (by simp [hstat]), if_neg (by simp [hcode])]
  simp only [createTransaction, debitWallet, creditWallet]
  rw [if_neg (by exact not_le.mpr hamt), if_neg (by exact not_lt.mpr hbal),
    if_neg (by exact not_le.mpr (by omega))]

/-- Witness for `complete_ignores_expiry` on the concrete expired
request `accReq`. -/
theorem complete_ignores_expiry_witness :
    ∃ st1 t, completeExchangeRequest accSt 0 2 9 42 = .ok (st1, t) :=
  complete_ignores_expiry accSt 0 2 9 42 accReq (by decide) (by decide)
    (by decide) (by decide) (by decide) (by decide) (by decide) (by decide)

/-! ### C4: transaction balance bookkeeping -/

lemma debitWallet_ok {b a r : Int} (h : debitWallet b a = .ok r) :
    r = b - a ∧ 0 < a ∧ a ≤ b := by
  simp only [debitWallet] at h
  split at h
  · exact absurd h (by simp)
  · split at h
    · exact absurd h (by simp)
    · simp only [Except.ok.injEq] at h
      rename_i h1 h2
      exact ⟨h.symm, by omega, by omega⟩

lemma creditWallet_ok {b a r : Int} (h : creditWallet b a = .ok r) :
    r = b + a ∧ 0 < a := by
  simp only [creditWallet] at h
  split at h
  · exact absurd h (by simp)
  · simp only [Except.ok.injEq] at h
    rename_i h1
    exact ⟨h.symm, by omega⟩

/-- C4: every transaction produced by a successful settlement satisfies
`payerBalanceBefore - payerBalanceAfter = amount` and
`payeeBalanceAfter - payeeBalanceBefore = amount - platformFee`, where
the fee and amount in the transaction are exactly the ones stored on
the request (the fee frozen at creation time); and the fee frozen by
`createExchangeRequest` is `amount * platformFeePercent / 100`. -/
theorem settlement_balance_invariant
    (st : St) (now : Int) (actor : UserId) (requestId : ReqId) (code : Nat)
    (st1 : St) (t : Txn) (r : Request)
    (h : completeExchangeRequest st now actor requestId code = .ok (st1, t))
    (hr : findReq st requestId = some r) :
    (t.payerBalanceBefore - t.payerBalanceAfter = t.amount ∧
     t.payeeBalanceAfter - t.payeeBalanceBefore = t.amount - t.platformFee ∧
     t.platformFee = r.platformFee ∧ t.amount = r.amount) ∧
    (∀ st0 now0 actor0 newId amt ty loc em pct st2 rq,
      createExchangeRequest st0 now0 actor0 newId amt ty loc em pct = .ok (st2, rq) →
      rq.platformFee = amt * pct / 100) := by
  constructor
  · simp only [completeExchangeRequest, hr] at h
    split at h
    · exact absurd h (by simp)
    · split at h
      · exact absurd h (by simp)
      · split at h
        · exact absurd h (by simp)
        · split at h
          · exact absurd h (by simp)
          · split at h
            · exact absurd h (by simp)
            · rename_i bal1 txn hct
              simp only [Except.ok.injEq, Prod.mk.injEq] at h
              obtain ⟨-, ht⟩ := h
              subst ht
              simp only [createTransaction] at hct
              split at hct
              · exact absurd hct (by simp)
              · rename_i pa hdeb
                split at hct
                · exact absurd hct (by simp)
                · rename_i qa hcred
                  simp only [Except.ok.injEq, Prod.mk.injEq] at hct
                  obtain ⟨-, htxn⟩ := hct
                  have hd := debitWallet_ok hdeb
                  have hc := creditWallet_ok hcred
                  subst htxn
                  refine ⟨?_, ?_, ?_, ?_⟩ <;> dsimp only <;> omega
  · intro st0 now0 actor0 newId amt ty loc em pct st2 rq hok
    simp only [createExchangeRequest] at hok
    split at hok
    · exact absurd hok (by simp)
    · split at hok
      · exact absurd hok (by simp)
      · split at hok
        · exact absurd hok (by simp)
        · split at hok
          · exact absurd hok (by simp)
          · simp only [Except.ok.injEq, Prod.mk.injEq] at hok
            obtain ⟨-, hrq⟩ := hok
            rw [← hrq]

/-- Witness for `settlement_balance_invariant` on the concrete
settlement of `accReq`. -/
theorem settlement_balance_invariant_witness :
    ∃ st1 t, completeExchangeRequest accSt 0 2 9 42 = .ok (st1, t) ∧
      t.payerBalanceBefore - t.payerBalanceAfter = t.amount ∧
      t.payeeBalanceAfter - t.payeeBalanceBefore = t.amount - t.platformFee ∧
      t.platformFee = accReq.platformFee ∧ t.amount = accReq.amount := by
  refine ⟨_, _, rfl, ?_⟩
  exact (settlement_balance_invariant accSt 0 2 9 42 _ _ accReq rfl
    (by decide)).1

/-! ### C10: settlement rejects a non-positive net amount -/

lemma createTransaction_nonpos_net {bal : UserId → Int} {rid : ReqId}
    {payer payee : UserId} {amount fee : Int} {ty : ExchangeType} {now : Int}
    (hfee : amount ≤ fee) :
    ∃ e, createTransaction bal rid payer payee amount ty fee now = .error e := by
  simp only [createTransaction, debitWallet, creditWallet]
  by_cases h1 : amount ≤ 0
  · rw [if_pos h1]
    exact ⟨_, rfl⟩
  · rw [if_neg h1]
    by_cases h2 : bal payer < amount
    · rw [if_pos h2]
      exact ⟨_, rfl⟩
    · rw [if_neg h2, if_pos (show amount - fee ≤ 0 by omega)]
      exact ⟨_, rfl⟩

/-- C10: when the fee frozen on the request is at least the amount, the
net amount is non-positive, the ledger's credit primitive rejects it
(as the debit primitive also would), the session aborts and the call
leaves the state untouched with no transaction; and a platform-fee
percentage of 100 or more freezes such a fee at creation. -/
theorem settlement_rejects_nonpositive_net
    (st : St) (now : Int) (actor : UserId) (requestId : ReqId) (code : Nat)
    (r : Request)
    (hr : findReq st requestId = some r)
    (hfee : r.amount ≤ r.platformFee) :
    completeRun st now actor requestId code = (st, none) ∧
    (∀ b a : Int, a ≤ 0 →
      creditWallet b a = .error "Credit amount must be positive" ∧
      debitWallet b a = .error "Debit amount must be positive") ∧
    (∀ st0 now0 actor0 newId amt ty loc em pct st2 rq,
      100 ≤ pct →
      createExchangeRequest st0 now0 actor0 newId amt ty loc em pct = .ok (st2, rq) →
      rq.amount ≤ rq.platformFee) := by
  refine ⟨?_, ?_, ?_⟩
  · rcases hc : completeExchangeRequest st now actor requestId code with e | p
    · simp [completeRun, hc]
    · exfalso
      simp only [completeExchangeRequest, hr] at hc
      split at hc
      · exact absurd hc (by simp)
      · rename_i hu hhu
        split at hc
        · exact absurd hc (by simp)
        · split at hc
          · exact absurd hc (by simp)
          · split at hc
            · exact absurd hc (by simp)
            · split at hc
              · exact absurd hc (by simp)
              · rename_i bal1 txn hct
                obtain ⟨e1, he1⟩ := @createTransaction_nonpos_net
                  st.balance requestId
                  (payerOf r hu) (payeeOf r hu) _ _
                  r.exchangeType now hfee
                rw [he1] at hct
                exact absurd hct (by simp)
  · intro b a ha
    exact ⟨by simp [creditWallet, ha], by simp [debitWallet, ha]⟩
  · intro st0 now0 actor0 newId amt ty loc em pct st2 rq hpct hok
    simp only [createExchangeRequest] at hok
    split at hok
    · exact absurd hok (by simp)
    · split at hok
      · exact absurd hok (by simp)
      · split at hok
        · exact absurd hok (by simp)
        · split at hok
          · exact absurd hok (by simp)
          · rename_i hb1 hb2 hlo hhi
            simp only [Except.ok.injEq, Prod.mk.injEq] at hok
            obtain ⟨-, hrq⟩ := hok
            subst hrq
            dsimp only
            have h2 : amt * 100 ≤ amt * pct :=
              mul_le_mul_of_nonneg_left hpct (by omega)
            generalize amt * pct = k at h2 ⊢
            omega

/-- Witness for `settlement_rejects_nonpositive_net`: completing the
request whose frozen fee (150) exceeds its amount (100) leaves the
state unchanged and produces no transaction. -/
theorem settlement_rejects_nonpositive_net_witness :
    completeRun feeSt 0 2 11 42 = (feeSt, none) :=
  (settlement_rejects_nonpositive_net feeSt 0 2 11 42
    { accReq with id := 11, platformFee := 150 } (by decide) (by decide)).1

/-! ### C2: what a successful settlement actually advances -/

/-- C2 (failing input from the §8 scenario, fee 0): the successful
`complete` call changes both balances and records exactly one
Transaction, but advances only ONE request to COMPLETED: the helper's
linked request stays ACCEPTED, because `accept` stores `linkedRequest`
only on the helper's own request while `complete` reads the target's
`linkedRequest`, which is still null. -/
theorem complete_advances_only_target :
    (scenarioRun 0).map completedCount = some 1 ∧
    (scenarioRun 0).map (fun st => st.transactions.length) = some 1 ∧
    scenarioBalanceOf 0 1 = some 500 ∧
    scenarioBalanceOf 0 2 = some 2500 ∧
    scenarioStatusOf 0 102 = some (some .accepted) := by
  refine ⟨by decide, by decide, by decide, by decide, by decide⟩

/-! ### C1: the §8 end-to-end scenario -/

/-- C1 counterexample (fee percentage 2, so fee 10): requester A
(user 1, starting at 1000) ends at 500 - the balance DECREASES by the
amount instead of increasing net of fee - while helper B (user 2,
starting at 2000) ends at 2490; and B's own request stays ACCEPTED
rather than becoming COMPLETED. -/
theorem scenario_claim_counterexample :
    scenarioBalanceOf 2 1 = some 500 ∧
    scenarioBalanceOf 2 2 = some 2490 ∧
    scenarioStatusOf 2 101 = some (some .completed) ∧
    scenarioStatusOf 2 102 = some (some .accepted) := by
  refine ⟨by decide, by decide, by decide, by decide⟩

set_option maxHeartbeats 10000000 in
set_option maxRecDepth 100000 in
/-- C1 amended: in the §8 scenario, for any platform-fee percentage
between 0 and 99 frozen at creation, B's `complete` call with the
correct code makes A's balance DECREASE by 500 (A is the payer for
A's CASH_TO_ONLINE request), makes B's balance increase by
500 minus the frozen fee, records exactly one Transaction, marks A's
(target) request COMPLETED, and leaves B's own linked request
ACCEPTED. -/
theorem scenario_settlement_effects (pct : Int) (h0 : 0 ≤ pct) (h100 : pct < 100) :
    scenarioBalanceOf pct 1 = some 500 ∧
    scenarioBalanceOf pct 2 = some (2500 - 500 * pct / 100) ∧
    (scenarioRun pct).map (fun st => st.transactions.length) = some 1 ∧
    scenarioStatusOf pct 101 = some (some .completed) ∧
    scenarioStatusOf pct 102 = some (some .accepted) := by
  have hstage : scenarioRun pct =
      (match completeExchangeRequest
          { requests := [
              { id := 101, requester := 1, helper := some 2, amount := 500,
                exchangeType := .cashToOnline, loc := (0, 0),
                status := Status.accepted, linkedRequest := none,
                expiresAt := 1800, acceptedAt := some 10, completedAt := none,
                cancelledAt := none, platformFee := 500 * pct / 100,
                completionCode := some 334567 },
              { id := 102, requester := 2, helper := none, amount := 1500,
                exchangeType := .onlineToCash, loc := (0, 0),
                status := Status.accepted, linkedRequest := some 101,
                expiresAt := 1800, acceptedAt := some 10, completedAt := none,
                cancelledAt := none, platformFee := 1500 * pct / 100,
                completionCode := none }],
            balance := scenarioBalance, completedExchanges := fun _ => 0,
            transactions := [] } 20 2 101 334567 with
        | .error _ => none
        | .ok (st3, _) => some st3) := rfl
  simp only [scenarioBalanceOf, scenarioStatusOf]
  rw [hstage,
    completeExchangeRequest_ok_eq
      { requests := [
          { id := 101, requester := 1, helper := some 2, amount := 500,
            exchangeType := .cashToOnline, loc := (0, 0),
            status := Status.accepted, linkedRequest := none,
            expiresAt := 1800, acceptedAt := some 10, completedAt := none,
            cancelledAt := none, platformFee := 500 * pct / 100,
            completionCode := some 334567 },
          { id := 102, requester := 2, helper := none, amount := 1500,
            exchangeType := .onlineToCash, loc := (0, 0),
            status := Status.accepted, linkedRequest := some 101,
            expiresAt := 1800, acceptedAt := some 10, completedAt := none,
            cancelledAt := none, platformFee := 1500 * pct / 100,
            completionCode := none }],
        balance := scenarioBalance, completedExchanges := fun _ => 0,
        transactions := [] } 20 2 101 334567
      { id := 101, requester := 1, helper := some 2, amount := 500,
        exchangeType := .cashToOnline, loc := (0, 0),
        status := Status.accepted, linkedRequest := none,
        expiresAt := 1800, acceptedAt := some 10, completedAt := none,
        cancelledAt := none, platformFee := 500 * pct / 100,
        completionCode := some 334567 }
      rfl rfl rfl rfl ((by norm_num : (0:Int) < 500))
      ((by norm_num : (500:Int) ≤ 1000))
      ((by omega : (500:Int) * pct / 100 < 500))]
  refine ⟨?_, ?_, ?_, ?_, ?_⟩ <;>
    simp [statusOf, findReq, payerOf, payeeOf, scenarioBalance,
      Function.update] <;>
    omega

/-- Witness for `scenario_settlement_effects` at fee percentage 2. -/
theorem scenario_settlement_effects_witness :
    scenarioBalanceOf 2 1 = some 500 ∧
    scenarioBalanceOf 2 2 = some (2500 - 500 * 2 / 100) ∧
    (scenarioRun 2).map (fun st => st.transactions.length) = some 1 ∧
    scenarioStatusOf 2 101 = some (some .completed) ∧
    scenarioStatusOf 2 102 = some (some .accepted) :=
  scenario_settlement_effects 2 (by decide) (by decide)

/-! ### C5: the one-active-request-per-user invariant -/

lemma countP_map_le_of_imp {α : Type} {l : List α} {f : α → α} {p : α → Bool}
    (h : ∀ x ∈ l, p (f x) = true → p x = true) :
    (l.map f).countP p ≤ l.countP p := by
  induction l with
  | nil => simp
  | cons a as ih =>
    simp only [List.map_cons, List.countP_cons]
    have ha := h a (List.mem_cons_self a as)
    have hih := ih (fun x hx => h x (List.mem_cons_of_mem _ hx))
    by_cases hpa : p (f a) = true
    · rw [if_pos hpa, if_pos (ha hpa)]
      omega
    · rw [if_neg hpa]
      split <;> omega

/-- The predicate counted by `activeCount`. -/
lemma activeCount_le_of_requests_map {st1 st : St} {u : UserId}
    {f : Request → Request}
    (hreq : st1.requests = st.requests.map f)
    (h : ∀ x ∈ st.requests,
      (decide ((f x).requester = u ∧ isActive (f x).status)) = true →
      (decide (x.requester = u ∧ isActive x.status)) = true) :
    activeCount st1 u ≤ activeCount st u := by
  unfold activeCount
  rw [hreq]
  exact countP_map_le_of_imp h

lemma imp_of_requester_status (u : UserId) (x y : Request)
    (hreq : y.requester = x.requester)
    (hst : y.status = x.status ∨ x.status = Status.created) :
    decide (y.requester = u ∧ isActive y.status) = true →
    decide (x.requester = u ∧ isActive x.status) = true := by
  simp only [decide_eq_true_eq]
  rintro ⟨h1, h2⟩
  refine ⟨hreq ▸ h1, ?_⟩
  rcases hst with h | h
  · exact h ▸ h2
  · exact Or.inl h

/-- C5: every operation preserves the one-active-request-per-user
invariant (for the stored collections whose Mongo ids are unique), and
`createExchangeRequest` fails with a CONFLICT when the actor already
owns an active request. -/
theorem one_active_request_invariant
    (st : St) (now : Int) (actor : UserId) (newId requestId : ReqId)
    (amount : Int) (ty : ExchangeType) (loc : Rat × Rat) (em : Int)
    (pct : Int) (rnum rden code : Nat) :
    (∀ st1 rq, oneActivePerUser st →
      createExchangeRequest st now actor newId amount ty loc em pct = .ok (st1, rq) →
      oneActivePerUser st1) ∧
    (∀ out, oneActivePerUser st → (st.requests.map Request.id).Nodup →
      acceptExchangeRequest st now actor requestId rnum rden = .ok out →
      oneActivePerUser out.st) ∧
    (∀ st1 t, oneActivePerUser st →
      completeExchangeRequest st now actor requestId code = .ok (st1, t) →
      oneActivePerUser st1) ∧
    (∀ st1 rq, oneActivePerUser st →
      cancelExchangeRequest st now actor requestId = .ok (st1, rq) →
      oneActivePerUser st1) ∧
    (oneActivePerUser st → oneActivePerUser (sweepExpiredRequests st now)) ∧
    (∀ r, r ∈ st.requests → r.requester = actor → isActive r.status →
      ∃ msg, createExchangeRequest st now actor newId amount ty loc em pct =
        .error (.conflict msg)) := by
  refine ⟨?_, ?_, ?_, ?_, ?_, ?_⟩
  · -- createExchangeRequest preserves the invariant
    intro st1 rq hinv hok
    simp only [createExchangeRequest] at hok
    split at hok
    · exact absurd hok (by simp)
    · rename_i hbusy
      split at hok
      · exact absurd hok (by simp)
      · split at hok
        · exact absurd hok (by simp)
        · split at hok
          · exact absurd hok (by simp)
          · simp only [Except.ok.injEq, Prod.mk.injEq] at hok
            obtain ⟨hst1, -⟩ := hok
            subst hst1
            intro u
            have hle := hinv u
            simp only [activeCount, List.countP_append, List.countP_cons,
              List.countP_nil, decide_eq_true_eq] at hle ⊢
            by_cases hu : u = actor
            · subst hu
              have hzero : List.countP
                  (fun r => decide (r.requester = u ∧ isActive r.status))
                  st.requests = 0 := by
                rw [List.countP_eq_zero]
                intro a ha
                simp only [List.any_eq_true] at hbusy
                simp only [decide_eq_true_eq]
                exact fun hpa => hbusy ⟨a, ha, by simpa using hpa⟩
              simp only [decide_eq_true_eq] at hzero
              rw [hzero]
              simp [isActive]
            · have hnew : ¬ (actor = u ∧ isActive Status.created) :=
                fun hcon => hu hcon.1.symm
              simp only [if_neg hnew, add_zero]
              exact hle
  · -- acceptExchangeRequest preserves the invariant
    intro out hinv hnd hok
    simp only [acceptExchangeRequest] at hok
    split at hok
    · exact absurd hok (by simp)
    · split at hok
      · exact absurd hok (by simp)
      · rename_i target htarget
        split at hok
        · exact absurd hok (by simp)
        · split at hok
          · exact absurd hok (by simp)
          · split at hok
            · exact absurd hok (by simp)
            · split at hok
              · exact absurd hok (by simp)
              · rename_i hr hhr
                split at hok
                · exact absurd hok (by simp)
                · split at hok
                  · exact absurd hok (by simp)
                  · split at hok
                    · exact absurd hok (by simp)
                    · rename_i requests1 updatedRequest hcw
                      simp only [Except.ok.injEq] at hok
                      subst hok
                      simp only [condAcceptWrite] at hcw
                      split at hcw
                      · exact absurd hcw (by simp)
                      · rename_i r0 hr0
                        simp only [Option.some.injEq, Prod.mk.injEq] at hcw
                        obtain ⟨hreq1, -⟩ := hcw
                        subst hreq1
                        have hhrp := List.find?_some hhr
                        simp only [decide_eq_true_eq] at hhrp
                        have hhrm := List.mem_of_find?_eq_some hhr
                        intro u
                        have hle := hinv u
                        simp only [activeCount, List.map_map] at hle ⊢
                        refine le_trans (countP_map_le_of_imp ?_) hle
                        intro x hx hpx
                        have hx_created : x.id = hr.id → x.status = Status.created := by
                          intro hch
                          rw [List.inj_on_of_nodup_map hnd hx hhrm hch]
                          exact hhrp.2
                        simp only [Function.comp_apply] at hpx
                        refine imp_of_requester_status u x _ ?_ ?_ hpx
                        · repeat' split
                          all_goals rfl
                        · repeat' split
                          all_goals simp_all
  · -- completeExchangeRequest preserves the invariant
    intro st1 t hinv hok
    simp only [completeExchangeRequest] at hok
    split at hok
    · exact absurd hok (by simp)
    · rename_i r hfr
      split at hok
      · exact absurd hok (by simp)
      · split at hok
        · exact absurd hok (by simp)
        · split at hok
          · exact absurd hok (by simp)
          · split at hok
            · exact absurd hok (by simp)
            · split at hok
              · exact absurd hok (by simp)
              · rename_i bal1 txn hct
                rcases hlr : r.linkedRequest with _ | lid <;> rw [hlr] at hok <;>
                  simp only [Except.ok.injEq, Prod.mk.injEq] at hok <;>
                  obtain ⟨hst1, -⟩ := hok <;> subst hst1 <;> intro u
                · refine le_trans (activeCount_le_of_requests_map (u := u) rfl ?_)
                    (hinv u)
                  intro x hx hpx
                  by_cases hc : x.id = requestId
                  · rw [if_pos hc] at hpx
                    simp [isActive] at hpx
                  · rwa [if_neg hc] at hpx
                · have hmid : activeCount
                      { requests := st.requests.map (fun q =>
                          if q.id = requestId then
                            { q with status := Status.completed, completedAt := some now }
                          else q),
                        balance := st.balance,
                        completedExchanges := st.completedExchanges,
                        transactions := st.transactions } u ≤ activeCount st u := by
                    refine activeCount_le_of_requests_map (u := u) rfl ?_
                    intro x hx hpx
                    by_cases hc : x.id = requestId
                    · rw [if_pos hc] at hpx
                      simp [isActive] at hpx
                    · rwa [if_neg hc] at hpx
                  refine le_trans ?_ (le_trans hmid (hinv u))
                  refine activeCount_le_of_requests_map (u := u) rfl ?_
                  intro x hx hpx
                  by_cases hc : x.id = lid
                  · rw [if_pos hc] at hpx
                    simp [isActive] at hpx
                  · rwa [if_neg hc] at hpx
  · -- cancelExchangeRequest preserves the invariant
    intro st1 rq hinv hok
    simp only [cancelExchangeRequest] at hok
    split at hok
    · exact absurd hok (by simp)
    · split at hok
      · exact absurd hok (by simp)
      · split at hok
        · exact absurd hok (by simp)
        · simp only [Except.ok.injEq, Prod.mk.injEq] at hok
          obtain ⟨hst1, -⟩ := hok
          subst hst1
          intro u
          refine le_trans (activeCount_le_of_requests_map (u := u) rfl ?_) (hinv u)
          intro x hx hpx
          by_cases hc : x.id = requestId
          · rw [if_pos hc] at hpx
            simp [isActive] at hpx
          · rwa [if_neg hc] at hpx
  · -- the sweeper preserves the invariant
    intro hinv u
    refine le_trans (activeCount_le_of_requests_map (u := u) rfl ?_) (hinv u)
    intro x hx hpx
    by_cases hc : x.status = Status.created ∧ x.expiresAt ≤ now
    · rw [if_pos hc] at hpx
      simp [isActive] at hpx
    · rwa [if_neg hc] at hpx
  · -- createExchangeRequest rejects an actor who already has an active request
    intro r hr hrq hact
    simp only [createExchangeRequest]
    rw [if_pos ?_]
    · exact ⟨_, rfl⟩
    · rw [List.any_eq_true]
      exact ⟨r, hr, by simp [hrq, hact]⟩

/-- Witness for `one_active_request_invariant`: creating a first request
on the empty store keeps the invariant, and a second create by the same
user is rejected with a CONFLICT. -/
theorem one_active_request_invariant_witness :
    (∃ st1 rq,
      createExchangeRequest scenarioSt0 0 1 101 500 .cashToOnline (0, 0) 30 0 =
        .ok (st1, rq) ∧ oneActivePerUser st1) ∧
    (∃ msg, createExchangeRequest pendSt 0 1 77 200 .cashToOnline (0, 0) 30 0 =
      .error (.conflict msg)) := by
  constructor
  · refine ⟨_, _, rfl, ?_⟩
    exact (one_active_request_invariant scenarioSt0 0 1 101 0 500 .cashToOnline
      (0, 0) 30 0 0 0 0).1 _ _
      (fun u => by simp [activeCount, scenarioSt0]) rfl
  · exact (one_active_request_invariant pendSt 0 1 77 0 200 .cashToOnline
      (0, 0) 30 0 0 0 0).2.2.2.2.2 pendReq (by decide) (by decide) (by decide)

/-! ### C9: the pairing link lives only on the helper's request -/

lemma find?_id_map (l : List Request) (f : Request → Request) (i : ReqId)
    (hid : ∀ q, (f q).id = q.id) :
    (l.map f).find? (fun r => decide (r.id = i)) =
      (l.find? (fun r => decide (r.id = i))).map f := by
  induction l with
  | nil => rfl
  | cons a as ih =>
    by_cases h : a.id = i
    · rw [List.map_cons, List.find?_cons_of_pos _ (by simp [hid a, h]),
        List.find?_cons_of_pos _ (by simp [h])]
      rfl
    · rw [List.map_cons, List.find?_cons_of_neg _ (by simp [hid a, h]),
        List.find?_cons_of_neg _ (by simp [h]), ih]

lemma linkedOf_map_eq {st1 st : St} {f : Request → Request}
    (hreq : st1.requests = st.requests.map f)
    (hid : ∀ q, (f q).id = q.id)
    (hl : ∀ q, (f q).linkedRequest = q.linkedRequest) :
    ∀ i, linkedOf st1 i = linkedOf st i := by
  intro i
  unfold linkedOf findReq
  rw [hreq, find?_id_map _ _ _ hid]
  cases st.requests.find? (fun r => decide (r.id = i)) <;> simp [hl]

/-- C9: a successful accept records the pairing only on the helper's own
request: the request that receives `linkedRequest := target id` is a
pre-existing request whose requester is the accepting user (the actor)
and whose status was CREATED - exactly the `findOne({requester,
status: CREATED})` result - and it is distinct from the target; the
`linkedRequest` of every other request - in particular the target's,
which stays null - is untouched, and no other operation (create,
complete, cancel, sweeper) ever changes any request's `linkedRequest`. -/
theorem link_only_on_helper_request
    (st : St) (now : Int) (actor : UserId) (requestId newId : ReqId)
    (rnum rden code : Nat) (amount : Int) (ty : ExchangeType)
    (loc : Rat × Rat) (em pct : Int) :
    (∀ out, (st.requests.map Request.id).Nodup →
      acceptExchangeRequest st now actor requestId rnum rden = .ok out →
      ∃ hid hreq, hid ≠ requestId ∧
        findReq st hid = some hreq ∧
        hreq.requester = actor ∧
        hreq.status = Status.created ∧
        linkedOf out.st hid = some (some requestId) ∧
        ∀ i, i ≠ hid → linkedOf out.st i = linkedOf st i) ∧
    (∀ st1 rq,
      createExchangeRequest st now actor newId amount ty loc em pct = .ok (st1, rq) →
      rq.linkedRequest = none ∧
      ∀ i, (findReq st i).isSome → linkedOf st1 i = linkedOf st i) ∧
    (∀ st1 t, completeExchangeRequest st now actor requestId code = .ok (st1, t) →
      ∀ i, linkedOf st1 i = linkedOf st i) ∧
    (∀ st1 rq, cancelExchangeRequest st now actor requestId = .ok (st1, rq) →
      ∀ i, linkedOf st1 i = linkedOf st i) ∧
    (∀ i, linkedOf (sweepExpiredRequests st now) i = linkedOf st i) := by
  refine ⟨?_, ?_, ?_, ?_, ?_⟩
  · -- accept
    intro out hnd hok
    simp only [acceptExchangeRequest] at hok
    split at hok
    · exact absurd hok (by simp)
    · split at hok
      · exact absurd hok (by simp)
      · rename_i target htarget
        split at hok
        · exact absurd hok (by simp)
        · rename_i hnself
          split at hok
          · exact absurd hok (by simp)
          · split at hok
            · exact absurd hok (by simp)
            · split at hok
              · exact absurd hok (by simp)
              · rename_i hr hhr
                split at hok
                · exact absurd hok (by simp)
                · split at hok
                  · exact absurd hok (by simp)
                  · split at hok
                    · exact absurd hok (by simp)
                    · rename_i requests1 updatedRequest hcw
                      simp only [Except.ok.injEq] at hok
                      subst hok
                      simp only [condAcceptWrite] at hcw
                      split at hcw
                      · exact absurd hcw (by simp)
                      · rename_i r0 hr0
                        simp only [Option.some.injEq, Prod.mk.injEq] at hcw
                        obtain ⟨hreq1, -⟩ := hcw
                        subst hreq1
                        have hhrp := List.find?_some hhr
                        simp only [decide_eq_true_eq] at hhrp
                        have hhrm := List.mem_of_find?_eq_some hhr
                        simp only [findReq] at htarget
                        have htargp := List.find?_some htarget
                        simp only [decide_eq_true_eq] at htargp
                        have htargm := List.mem_of_find?_eq_some htarget
                        have hne : hr.id ≠ requestId := by
                          intro hcontra
                          have heq : hr = target :=
                            List.inj_on_of_nodup_map hnd hhrm htargm
                              (by rw [hcontra, htargp])
                          exact hnself (heq ▸ hhrp.1)
                        have hfindhr : st.requests.find?
                            (fun r => decide (r.id = hr.id)) = some hr := by
                          rcases hf2 : st.requests.find?
                              (fun r => decide (r.id = hr.id)) with _ | x
                          · exact absurd (by simp : decide (hr.id = hr.id) = true)
                              (List.find?_eq_none.mp hf2 hr hhrm)
                          · have hx := List.find?_some hf2
                            simp only [decide_eq_true_eq] at hx
                            have hxhr : x = hr := List.inj_on_of_nodup_map hnd
                              (List.mem_of_find?_eq_some hf2) hhrm hx
                            rw [hf2, hxhr]
                        refine ⟨hr.id, hr, hne, hfindhr, hhrp.1, hhrp.2, ?_, ?_⟩
                        · simp only [linkedOf, findReq]
                          rw [List.map_map, List.map_map,
                            find?_id_map _ _ _ (fun q => by
                              simp [Function.comp_apply, apply_ite Request.id]),
                            hfindhr]
                          simp [Function.comp_apply, apply_ite Request.id,
                            apply_ite (fun r : Request => r.linkedRequest), hne]
                        · intro i hnei
                          simp only [linkedOf, findReq]
                          rw [List.map_map, List.map_map,
                            find?_id_map _ _ _ (fun q => by
                              simp [Function.comp_apply, apply_ite Request.id])]
                          rcases hfi : st.requests.find?
                              (fun r => decide (r.id = i)) with _ | q
                          · rw [hfi]
                            rfl
                          · have hqid := List.find?_some hfi
                            simp only [decide_eq_true_eq] at hqid
                            have hqne : q.id ≠ hr.id := by
                              rw [hqid]
                              exact hnei
                            rw [hfi]
                            simp [Function.comp_apply, apply_ite Request.id,
                              apply_ite (fun r : Request => r.linkedRequest), hqne]
  · -- createExchangeRequest never sets linkedRequest
    intro st1 rq hok
    simp only [createExchangeRequest] at hok
    split at hok
    · exact absurd hok (by simp)
    · split at hok
      · exact absurd hok (by simp)
      · split at hok
        · exact absurd hok (by simp)
        · split at hok
          · exact absurd hok (by simp)
          · simp only [Except.ok.injEq, Prod.mk.injEq] at hok
            obtain ⟨hst1, hrq⟩ := hok
            subst hst1
            refine ⟨by rw [← hrq], ?_⟩
            intro i hi
            simp only [linkedOf, findReq]
            rw [List.find?_append]
            rcases hfi : st.requests.find? (fun r => decide (r.id = i)) with _ | q
            · exfalso
              unfold findReq at hi
              rw [hfi] at hi
              simp at hi
            · rw [hfi]
              rfl
  · -- completeExchangeRequest never changes linkedRequest
    intro st1 t hok
    simp only [completeExchangeRequest] at hok
    split at hok
    · exact absurd hok (by simp)
    · rename_i r hfr
      split at hok
      · exact absurd hok (by simp)
      · split at hok
        · exact absurd hok (by simp)
        · split at hok
          · exact absurd hok (by simp)
          · split at hok
            · exact absurd hok (by simp)
            · split at hok
              · exact absurd hok (by simp)
              · rename_i bal1 txn hct
                rcases hlr : r.linkedRequest with _ | lid <;>
                  rw [hlr] at hok <;>
                  simp only [Except.ok.injEq, Prod.mk.injEq] at hok <;>
                  obtain ⟨hst1, -⟩ := hok <;> subst hst1
                · exact linkedOf_map_eq rfl
                    (fun q => by repeat' split <;> rfl)
                    (fun q => by repeat' split <;> rfl)
                · exact linkedOf_map_eq (by rw [List.map_map])
                    (fun q => by
                      simp only [Function.comp_apply]
                      repeat' split
                      all_goals rfl)
                    (fun q => by
                      simp only [Function.comp_apply]
                      repeat' split
                      all_goals rfl)
  · -- cancelExchangeRequest never changes linkedRequest
    intro st1 rq hok
    simp only [cancelExchangeRequest] at hok
    split at hok
    · exact absurd hok (by simp)
    · split at hok
      · exact absurd hok (by simp)
      · split at hok
        · exact absurd hok (by simp)
        · simp only [Except.ok.injEq, Prod.mk.injEq] at hok
          obtain ⟨hst1, -⟩ := hok
          subst hst1
          exact linkedOf_map_eq rfl
            (fun q => by repeat' split <;> rfl)
            (fun q => by repeat' split <;> rfl)
  · -- the sweeper never changes linkedRequest
    exact linkedOf_map_eq rfl
      (fun q => by repeat' split <;> rfl)
      (fun q => by repeat' split <;> rfl)

/-- Witness for `link_only_on_helper_request`: user 2 accepts request 7;
the link appears only on request 8 (user 2's own request). -/
theorem link_only_on_helper_request_witness :
    ∃ out, acceptExchangeRequest linkSt 0 2 7 1 2 = .ok out ∧
      ∃ hid hreq, hid ≠ 7 ∧
        findReq linkSt hid = some hreq ∧
        hreq.requester = 2 ∧
        hreq.status = Status.created ∧
        linkedOf out.st hid = some (some 7) ∧
        ∀ i, i ≠ hid → linkedOf out.st i = linkedOf linkSt i := by
  refine ⟨_, rfl, ?_⟩
  exact (link_only_on_helper_request linkSt 0 2 7 0 1 2 0 1 .cashToOnline
    (0, 0) 0 0).1 _ (by decide) rfl

end CashExchange
